import Mathlib

/-!
Verification of the pyRPC marshalling protocol and endpoint resolver
(`pyrpc/marshal.py`, `pyrpc/util.py`, `pyrpc/server.py`) against its
natural-language specification.  Python values and JSON trees are shallowly
embedded as inductive types; the marshal/unmarshal engines, the version
envelope and the server's endpoint resolution are translated function by
function from the source.
-/

namespace PyRPC

/-- Model of a Python `float` as an opaque 64-bit payload (its IEEE-754 bit
pattern).  The marshalling code never inspects floats: they pass through the
JSON tree unchanged, and the binary tensor format stores them losslessly, so
only their identity matters here. -/
structure PyFloat where
  bits : Nat
deriving DecidableEq

/-- Element buffer of a numpy ndarray, one variant per supported dtype
family (integer, float, complex). -/
inductive NdData where
  | ints (xs : List Int)
  | floats (xs : List PyFloat)
  | complexes (xs : List (PyFloat × PyFloat))
deriving DecidableEq

/-- Model of a numpy ndarray: a dtype-tagged flat element buffer together
with its multi-dimensional shape. -/
structure NdArray where
  shape : List Nat
  data : NdData
deriving DecidableEq

/-! ## Base64 (`base64.b64encode` / `base64.b64decode`)

`marshal.py` stores `bytes` values and the npy blob of an ndarray as base64
text.  Bytes are modelled as `Nat` values (well-formed inputs are `< 256`). -/

/-- The standard base64 alphabet. -/
def b64chars : List Char :=
  "ABCDEFGHIJKLMNOPQRSTUVWXYZabcdefghijklmnopqrstuvwxyz0123456789+/".toList

/-- Sextet to base64 character. -/
def encChar (n : Nat) : Char := b64chars.getD n '='

/-- Base64 character back to its sextet. -/
def decChar (c : Char) : Option Nat := b64chars.findIdx? (· == c)

/-- Base64-encode a byte string, 3 bytes to 4 characters, padding with
`=`. -/
def b64encode : List Nat → List Char
  | [] => []
  | [a] => [encChar (a / 4), encChar (a % 4 * 16), '=', '=']
  | [a, b] => [encChar (a / 4), encChar (a % 4 * 16 + b / 16), encChar (b % 16 * 4), '=']
  | a :: b :: c :: rest =>
    encChar (a / 4) :: encChar (a % 4 * 16 + b / 16) ::
      encChar (b % 16 * 4 + c / 64) :: encChar (c % 64) :: b64encode rest

/-- Base64-decode, 4 characters to up to 3 bytes; `none` on malformed
input. -/
def b64decode : List Char → Option (List Nat)
  | [] => some []
  | c1 :: c2 :: c3 :: c4 :: rest =>
    match decChar c1, decChar c2 with
    | some d1, some d2 =>
      if c3 = '=' then
        if c4 = '=' ∧ rest = [] then some [d1 * 4 + d2 / 16] else none
      else
        match decChar c3 with
        | some d3 =>
          if c4 = '=' then
            if rest = [] then some [d1 * 4 + d2 / 16, d2 % 16 * 16 + d3 / 4] else none
          else
            match decChar c4 with
            | some d4 =>
              match b64decode rest with
              | some bs =>
                some ((d1 * 4 + d2 / 16) :: (d2 % 16 * 16 + d3 / 4) :: (d3 % 4 * 64 + d4) :: bs)
              | none => none
            | none => none
        | none => none
    | _, _ => none
  | _ => none

theorem decChar_encChar {n : Nat} (h : n < 64) : decChar (encChar n) = some n := by
  have all : ∀ m : Fin 64, decChar (encChar m.val) = some m.val := by decide
  exact all ⟨n, h⟩

theorem encChar_ne_pad {n : Nat} (h : n < 64) : encChar n ≠ '=' := by
  intro he
  have h1 := decChar_encChar h
  rw [he] at h1
  have h2 : decChar '=' = none := by decide
  rw [h2] at h1
  exact Option.noConfusion h1

theorem b64decode_b64encode :
    ∀ l : List Nat, (∀ b ∈ l, b < 256) → b64decode (b64encode l) = some l := by
  intro l
  induction l using b64encode.induct with
  | case1 => intro _; rfl
  | case2 a =>
    intro hb
    have ha : a < 256 := hb a (by simp)
    have h1 : a / 4 < 64 := by omega
    have h2 : a % 4 * 16 < 64 := by omega
    simp [b64encode, b64decode, decChar_encChar h1, decChar_encChar h2]
    omega
  | case3 a b =>
    intro hb
    have ha : a < 256 := hb a (by simp)
    have hb' : b < 256 := hb b (by simp)
    have h1 : a / 4 < 64 := by omega
    have h2 : a % 4 * 16 + b / 16 < 64 := by omega
    have h3 : b % 16 * 4 < 64 := by omega
    simp [b64encode, b64decode, decChar_encChar h1, decChar_encChar h2,
      decChar_encChar h3, encChar_ne_pad h3]
    omega
  | case4 a b c rest ih =>
    intro hb
    have ha : a < 256 := hb a (by simp)
    have hbb : b < 256 := hb b (by simp)
    have hc : c < 256 := hb c (by simp)
    have hrest : ∀ x ∈ rest, x < 256 := by
      intro x hx; exact hb x (by simp [hx])
    have h1 : a / 4 < 64 := by omega
    have h2 : a % 4 * 16 + b / 16 < 64 := by omega
    have h3 : b % 16 * 4 + c / 64 < 64 := by omega
    have h4 : c % 64 < 64 := by omega
    simp [b64encode, b64decode, decChar_encChar h1, decChar_encChar h2,
      decChar_encChar h3, decChar_encChar h4, encChar_ne_pad h3,
      encChar_ne_pad h4, ih hrest]
    omega

/-! ## Binary tensor format (`np.lib.format.write_array` / `read_array`)

The npy v3.0 writer and reader used by `marshal_ndarray` belong to numpy,
not to this repository.  The spec describes them as a self-describing binary
tensor format (dtype, shape, element order, raw bytes) whose reader inverts
its writer; they are modelled here as such, with a variable-length byte
encoding for the individual fields. -/

/-- Variable-length byte encoding of a natural number (7 bits per byte,
high bit marks continuation). -/
def natToBytes (n : Nat) : List Nat :=
  if h : n < 128 then [n] else (n % 128 + 128) :: natToBytes (n / 128)
termination_by n
decreasing_by omega

/-- Read back one variable-length natural number, returning the remaining
bytes. -/
def readNat : List Nat → Option (Nat × List Nat)
  | [] => none
  | b :: rest =>
    if b < 128 then some (b, rest)
    else
      match readNat rest with
      | some (m, rest2) => some (m * 128 + (b - 128), rest2)
      | none => none

theorem natToBytes_lt (n : Nat) : ∀ b ∈ natToBytes n, b < 256 := by
  induction n using natToBytes.induct with
  | case1 n h =>
    rw [natToBytes, dif_pos h]
    intro b hb
    simp at hb
    omega
  | case2 n h ih =>
    rw [natToBytes, dif_neg h]
    intro b hb
    rcases List.mem_cons.mp hb with h1 | h1
    · omega
    · exact ih b h1

theorem readNat_natToBytes (n : Nat) (rest : List Nat) :
    readNat (natToBytes n ++ rest) = some (n, rest) := by
  induction n using natToBytes.induct with
  | case1 n h =>
    rw [natToBytes, dif_pos h]
    simp [readNat, h]
  | case2 n h ih =>
    rw [natToBytes, dif_neg h]
    have h2 : ¬ (n % 128 + 128 < 128) := by omega
    simp only [List.cons_append, readNat, if_neg h2, List.append_eq]
    rw [ih]
    simp only [Option.some.injEq, Prod.mk.injEq]
    exact ⟨by omega, trivial⟩

/-- Zigzag encoding of an integer as a natural number. -/
def intToNat (i : Int) : Nat :=
  if 0 ≤ i then 2 * i.toNat else 2 * (-i).toNat - 1

/-- Inverse of `intToNat`. -/
def natToInt (n : Nat) : Int :=
  if n % 2 = 0 then ((n / 2 : Nat) : Int) else -(((n + 1) / 2 : Nat) : Int)

theorem natToInt_intToNat (i : Int) : natToInt (intToNat i) = i := by
  simp only [intToNat, natToInt]
  split <;> split <;> omega

/-- Read a sequence of `count` items with the element reader `step`. -/
def readSeq (step : List Nat → Option (α × List Nat)) :
    Nat → List Nat → Option (List α × List Nat)
  | 0, bs => some ([], bs)
  | k + 1, bs =>
    match step bs with
    | some (x, bs1) =>
      match readSeq step k bs1 with
      | some (xs, bs2) => some (x :: xs, bs2)
      | none => none
    | none => none

theorem readSeq_flatMap (step : List Nat → Option (α × List Nat))
    (enc : α → List Nat)
    (henc : ∀ (x : α) (rest : List Nat), step (enc x ++ rest) = some (x, rest)) :
    ∀ (xs : List α) (rest : List Nat),
      readSeq step xs.length (xs.flatMap enc ++ rest) = some (xs, rest) := by
  intro xs
  induction xs with
  | nil => intro rest; rfl
  | cons x xs ih =>
    intro rest
    simp only [List.flatMap_cons, List.length_cons, List.append_assoc, readSeq,
      henc x (xs.flatMap enc ++ rest), ih rest]

/-- Byte encoding of one integer element. -/
def encInt (i : Int) : List Nat := natToBytes (intToNat i)

/-- Read back one integer element. -/
def readIntStep (bs : List Nat) : Option (Int × List Nat) :=
  match readNat bs with
  | some (n, rest) => some (natToInt n, rest)
  | none => none

/-- Byte encoding of one float element. -/
def encFloat (f : PyFloat) : List Nat := natToBytes f.bits

/-- Read back one float element. -/
def readFloatStep (bs : List Nat) : Option (PyFloat × List Nat) :=
  match readNat bs with
  | some (n, rest) => some (⟨n⟩, rest)
  | none => none

/-- Byte encoding of one complex element. -/
def encComplex (p : PyFloat × PyFloat) : List Nat :=
  natToBytes p.1.bits ++ natToBytes p.2.bits

/-- Read back one complex element. -/
def readComplexStep (bs : List Nat) : Option ((PyFloat × PyFloat) × List Nat) :=
  match readNat bs with
  | some (re, rest) =>
    match readNat rest with
    | some (im, rest2) => some ((⟨re⟩, ⟨im⟩), rest2)
    | none => none
  | none => none

theorem readIntStep_encInt (i : Int) (rest : List Nat) :
    readIntStep (encInt i ++ rest) = some (i, rest) := by
  simp [readIntStep, encInt, readNat_natToBytes, natToInt_intToNat]

theorem readFloatStep_encFloat (f : PyFloat) (rest : List Nat) :
    readFloatStep (encFloat f ++ rest) = some (f, rest) := by
  simp [readFloatStep, encFloat, readNat_natToBytes]

theorem readComplexStep_encComplex (p : PyFloat × PyFloat) (rest : List Nat) :
    readComplexStep (encComplex p ++ rest) = some (p, rest) := by
  simp [readComplexStep, encComplex, List.append_assoc, readNat_natToBytes]

/-- Model of `np.lib.format.write_array`: serialize shape, dtype tag and the
flat element buffer. -/
def write_array (a : NdArray) : List Nat :=
  natToBytes a.shape.length ++ a.shape.flatMap natToBytes ++
    match a.data with
    | .ints xs => 0 :: (natToBytes xs.length ++ xs.flatMap encInt)
    | .floats xs => 1 :: (natToBytes xs.length ++ xs.flatMap encFloat)
    | .complexes xs => 2 :: (natToBytes xs.length ++ xs.flatMap encComplex)

/-- Model of `np.lib.format.read_array`: parse what `write_array`
produced. -/
def read_array (bs : List Nat) : Option NdArray :=
  match readNat bs with
  | none => none
  | some (ndim, bs1) =>
    match readSeq readNat ndim bs1 with
    | none => none
    | some (shape, bs2) =>
      match bs2 with
      | 0 :: bs3 =>
        match readNat bs3 with
        | some (n, bs4) =>
          match readSeq readIntStep n bs4 with
          | some (xs, _) => some ⟨shape, .ints xs⟩
          | none => none
        | none => none
      | 1 :: bs3 =>
        match readNat bs3 with
        | some (n, bs4) =>
          match readSeq readFloatStep n bs4 with
          | some (xs, _) => some ⟨shape, .floats xs⟩
          | none => none
        | none => none
      | 2 :: bs3 =>
        match readNat bs3 with
        | some (n, bs4) =>
          match readSeq readComplexStep n bs4 with
          | some (xs, _) => some ⟨shape, .complexes xs⟩
          | none => none
        | none => none
      | _ => none

theorem read_array_write_array (a : NdArray) : read_array (write_array a) = some a := by
  obtain ⟨shape, data⟩ := a
  cases data with
  | ints xs =>
    simp only [write_array, read_array, List.append_assoc, readNat_natToBytes,
      readSeq_flatMap readNat natToBytes readNat_natToBytes shape]
    rw [show xs.flatMap encInt = xs.flatMap encInt ++ [] by simp,
      readSeq_flatMap readIntStep encInt readIntStep_encInt xs]
  | floats xs =>
    simp only [write_array, read_array, List.append_assoc, readNat_natToBytes,
      readSeq_flatMap readNat natToBytes readNat_natToBytes shape]
    rw [show xs.flatMap encFloat = xs.flatMap encFloat ++ [] by simp,
      readSeq_flatMap readFloatStep encFloat readFloatStep_encFloat xs]
  | complexes xs =>
    simp only [write_array, read_array, List.append_assoc, readNat_natToBytes,
      readSeq_flatMap readNat natToBytes readNat_natToBytes shape]
    rw [show xs.flatMap encComplex = xs.flatMap encComplex ++ [] by simp,
      readSeq_flatMap readComplexStep encComplex readComplexStep_encComplex xs]

theorem write_array_lt (a : NdArray) : ∀ b ∈ write_array a, b < 256 := by
  obtain ⟨shape, data⟩ := a
  intro b hb
  simp only [write_array, List.mem_append] at hb
  rcases hb with (h | h) | h
  · exact natToBytes_lt _ b h
  · obtain ⟨n, _, hn⟩ := List.mem_flatMap.mp h
    exact natToBytes_lt n b hn
  · cases data with
    | ints xs =>
      simp only [List.mem_cons, List.mem_append] at h
      rcases h with h | h | h
      · omega
      · exact natToBytes_lt _ b h
      · obtain ⟨i, _, hi⟩ := List.mem_flatMap.mp h
        exact natToBytes_lt _ b hi
    | floats xs =>
      simp only [List.mem_cons, List.mem_append] at h
      rcases h with h | h | h
      · omega
      · exact natToBytes_lt _ b h
      · obtain ⟨f, _, hf⟩ := List.mem_flatMap.mp h
        exact natToBytes_lt _ b hf
    | complexes xs =>
      simp only [List.mem_cons, List.mem_append] at h
      rcases h with h | h | h
      · omega
      · exact natToBytes_lt _ b h
      · obtain ⟨p, _, hp⟩ := List.mem_flatMap.mp h
        rcases List.mem_append.mp hp with hp1 | hp1
        · exact natToBytes_lt _ b hp1
        · exact natToBytes_lt _ b hp1

/-! ## Python values and JSON trees -/

/-- Shallow embedding of the Python values handled by `marshal_obj`:
scalars, composites, ndarrays, and (for the reference fallback) opaque
objects carrying only their runtime class name. -/
inductive PyValue where
  | none
  | int (n : Int)
  | float (f : PyFloat)
  | complex (re im : PyFloat)
  | str (s : String)
  | bytes (bs : List Nat)
  | list (xs : List PyValue)
  | tuple (xs : List PyValue)
  | set (xs : List PyValue)
  | dict (kvs : List (String × PyValue))
  | ndarray (a : NdArray)
  | obj (cls : String)

/-- JSON-compatible trees (the `JsonType` of marshal.py): scalars, arrays
and string-keyed objects, the latter as ordered association lists. -/
inductive JValue where
  | null
  | int (n : Int)
  | float (f : PyFloat)
  | str (s : String)
  | arr (xs : List JValue)
  | obj (fields : List (String × JValue))

/-- Python `d[key]` on a JSON object: first binding of `key`, if any. -/
def jlookup : List (String × JValue) → String → Option JValue
  | [], _ => Option.none
  | (k, v) :: rest, key => if k = key then Option.some v else jlookup rest key

/-- Embedding of `wrapped` (marshal.py): `data` wrapped with a type hint,
extra keyword fields appended. -/
def wrapped (ty : String) (data : JValue) (kwargs : List (String × JValue)) : JValue :=
  .obj (("type", .str ty) :: ("data", data) :: kwargs)

/-- Embedding of `marshal_ndarray`: the npy bytes of the array, base64
encoded, wrapped with tag `ndarray` plus `shape` and `size` fields. -/
def marshal_ndarray (a : NdArray) : JValue :=
  wrapped "ndarray" (.str (String.mk (b64encode (write_array a))))
    [("shape", .arr (a.shape.map fun n => .int (n : Int))),
     ("size", .int (a.shape.prod : Int))]

mutual

/-- Embedding of `marshal_obj` (marshal.py): recursive encoder, dispatching
on the value's runtime type in source order; values with no native encoding
use the reference callback `rf` or fail with an unsupported-type error. -/
def marshal_obj (v : PyValue) (rf : Option (PyValue → String)) : Except String JValue :=
  match v with
  | .int n => .ok (.int n)
  | .float f => .ok (.float f)
  | .str s => .ok (.str s)
  | .none => .ok .null
  | .complex re im => .ok (wrapped "complex" (.arr [.float re, .float im]) [])
  | .ndarray a => .ok (marshal_ndarray a)
  | .bytes bs => .ok (wrapped "bytes" (.str (String.mk (b64encode bs))) [])
  | .dict kvs =>
    match marshalKVs kvs rf with
    | .ok inner => .ok (wrapped "dict" (.obj inner) [])
    | .error e => .error e
  | .set xs =>
    match marshalList xs rf with
    | .ok inner => .ok (wrapped "set" (.arr inner) [])
    | .error e => .error e
  | .tuple xs =>
    match marshalList xs rf with
    | .ok inner => .ok (wrapped "tuple" (.arr inner) [])
    | .error e => .error e
  | .list xs =>
    match marshalList xs rf with
    | .ok inner => .ok (.arr inner)
    | .error e => .error e
  | .obj cls =>
    match rf with
    | Option.none => .error ("Unsupported type <class \x27" ++ cls ++ "\x27>")
    | Option.some f =>
      .ok (.obj [("type", .str "ref"), ("url", .str (f (.obj cls))), ("class", .str cls)])

/-- Recursive marshalling of the elements of a sequence or set. -/
def marshalList (xs : List PyValue) (rf : Option (PyValue → String)) :
    Except String (List JValue) :=
  match xs with
  | [] => .ok []
  | x :: rest =>
    match marshal_obj x rf with
    | .ok j =>
      match marshalList rest rf with
      | .ok js => .ok (j :: js)
      | .error e => .error e
    | .error e => .error e

/-- Recursive marshalling of the values of a mapping (`map_values`), keys
passed through unchanged. -/
def marshalKVs (kvs : List (String × PyValue)) (rf : Option (PyValue → String)) :
    Except String (List (String × JValue)) :=
  match kvs with
  | [] => .ok []
  | (k, x) :: rest =>
    match marshal_obj x rf with
    | .ok j =>
      match marshalKVs rest rf with
      | .ok js => .ok ((k, j) :: js)
      | .error e => .error e
    | .error e => .error e

end

theorem sizeOf_jlookup :
    ∀ {fields : List (String × JValue)} {k : String} {v : JValue},
      jlookup fields k = Option.some v → sizeOf v < sizeOf fields := by
  intro fields
  induction fields with
  | nil => intro k v h; exact Option.noConfusion h
  | cons kv rest ih =>
    intro k v h
    obtain ⟨k0, v0⟩ := kv
    simp only [jlookup] at h
    split at h
    · cases h
      simp
      omega
    · have := ih h
      simp
      omega

mutual

/-- Embedding of `unmarshal_obj` (marshal.py): scalars pass through, bare
arrays decode as lists, tagged objects dispatch on the `type` field through
`UNMARSHAL_MAP`; an unrecognized tag fails with the literal message
`Unknown type annotation \x7bty\x7d` (the source string misses its
f-prefix). -/
def unmarshal_obj (j : JValue) (nf : Option (String → String → PyValue)) :
    Except String PyValue :=
  match j with
  | .int n => .ok (.int n)
  | .float f => .ok (.float f)
  | .str s => .ok (.str s)
  | .null => .ok .none
  | .arr xs =>
    match unmarshalList xs nf with
    | .ok vs => .ok (.list vs)
    | .error e => .error e
  | .obj fields =>
    match jlookup fields "type" with
    | Option.none => .error "KeyError: \x27type\x27"
    | Option.some (.str ty) =>
      if ty = "dict" then
        match hdata : jlookup fields "data" with
        | Option.some (.obj inner) =>
          match unmarshalKVs inner nf with
          | .ok vs => .ok (.dict vs)
          | .error e => .error e
        | Option.some _ => .error "TypeError: data is not a mapping"
        | Option.none => .error "KeyError: \x27data\x27"
      else if ty = "tuple" then
        match hdata : jlookup fields "data" with
        | Option.some (.arr xs) =>
          match unmarshalList xs nf with
          | .ok vs => .ok (.tuple vs)
          | .error e => .error e
        | Option.some _ => .error "TypeError: data is not iterable"
        | Option.none => .error "KeyError: \x27data\x27"
      else if ty = "set" then
        match hdata : jlookup fields "data" with
        | Option.some (.arr xs) =>
          match unmarshalList xs nf with
          | .ok vs => .ok (.set vs)
          | .error e => .error e
        | Option.some _ => .error "TypeError: data is not iterable"
        | Option.none => .error "KeyError: \x27data\x27"
      else if ty = "ndarray" then
        match hdata : jlookup fields "data" with
        | Option.some (.str s) =>
          match b64decode s.toList with
          | Option.some bs =>
            match read_array bs with
            | Option.some a => .ok (.ndarray a)
            | Option.none => .error "ValueError: malformed npy data"
          | Option.none => .error "binascii.Error: invalid base64"
        | Option.some _ => .error "TypeError: data is not a string"
        | Option.none => .error "KeyError: \x27data\x27"
      else if ty = "complex" then
        match hdata : jlookup fields "data" with
        | Option.some (.arr [.float re, .float im]) => .ok (.complex re im)
        | Option.some _ => .error "TypeError: bad complex data"
        | Option.none => .error "KeyError: \x27data\x27"
      else if ty = "bytes" then
        match hdata : jlookup fields "data" with
        | Option.some (.str s) =>
          match b64decode s.toList with
          | Option.some bs => .ok (.bytes bs)
          | Option.none => .error "binascii.Error: invalid base64"
        | Option.some _ => .error "TypeError: data is not a string"
        | Option.none => .error "KeyError: \x27data\x27"
      else if ty = "ref" then
        match nf with
        | Option.none =>
          match jlookup fields "class" with
          | Option.some (.str cls) => .error ("Unsupported type " ++ cls)
          | _ => .error "KeyError: \x27class\x27"
        | Option.some f =>
          match jlookup fields "url", jlookup fields "class" with
          | Option.some (.str url), Option.some (.str cls) => .ok (f url cls)
          | _, _ => .error "KeyError: \x27url\x27"
      else .error "Unknown type annotation \x7bty\x7d"
    | Option.some _ => .error "Unknown type annotation \x7bty\x7d"
termination_by sizeOf j
decreasing_by
  all_goals simp_wf
  all_goals try omega
  all_goals (have h1 := sizeOf_jlookup hdata; simp at h1; omega)

/-- Recursive unmarshalling of the elements of a JSON array. -/
def unmarshalList (xs : List JValue) (nf : Option (String → String → PyValue)) :
    Except String (List PyValue) :=
  match xs with
  | [] => .ok []
  | x :: rest =>
    match unmarshal_obj x nf with
    | .ok v =>
      match unmarshalList rest nf with
      | .ok vs => .ok (v :: vs)
      | .error e => .error e
    | .error e => .error e
termination_by sizeOf xs
decreasing_by
  all_goals simp_wf
  all_goals omega

/-- Recursive unmarshalling of the values of a JSON object. -/
def unmarshalKVs (kvs : List (String × JValue)) (nf : Option (String → String → PyValue)) :
    Except String (List (String × PyValue)) :=
  match kvs with
  | [] => .ok []
  | (k, x) :: rest =>
    match unmarshal_obj x nf with
    | .ok v =>
      match unmarshalKVs rest nf with
      | .ok vs => .ok ((k, v) :: vs)
      | .error e => .error e
    | .error e => .error e
termination_by sizeOf kvs
decreasing_by
  all_goals simp_wf
  all_goals omega

end

mutual

/-- The value shapes the round-trip property quantifies over: everything
`marshal_obj` encodes by value (no opaque objects; byte values in range). -/
def supported : PyValue → Bool
  | .none | .int _ | .float _ | .complex _ _ | .str _ => true
  | .bytes bs => bs.all (fun b => b < 256)
  | .list xs | .tuple xs | .set xs => supportedList xs
  | .dict kvs => supportedKVs kvs
  | .ndarray _ => true
  | .obj _ => false

/-- `supported` on every element of a list. -/
def supportedList : List PyValue → Bool
  | [] => true
  | x :: rest => supported x && supportedList rest

/-- `supported` on every value of a mapping. -/
def supportedKVs : List (String × PyValue) → Bool
  | [] => true
  | (_, x) :: rest => supported x && supportedKVs rest

end

/-! ## Version envelope (`marshal.py` / `util.py`) -/

/-- Python `str.strip(chars)`-style trimming on a character list: remove
the leading and trailing run of characters satisfying `p`. -/
def stripChars (p : Char → Bool) (l : List Char) : List Char :=
  ((l.dropWhile p).reverse.dropWhile p).reverse

/-- Python `str.split(sep)` for a one-character separator, on character
lists. -/
def splitOnChar (c : Char) : List Char → List (List Char)
  | [] => [[]]
  | x :: rest =>
    match splitOnChar c rest with
    | [] => [[]]
    | h :: t => if x = c then [] :: h :: t else (x :: h) :: t

/-- A nonempty all-digit character list as a natural number. -/
def digitsToNat (ds : List Char) : Option Nat :=
  if ds ≠ [] ∧ ds.all (·.isDigit)
  then Option.some (ds.foldl (fun a c => a * 10 + (c.toNat - 48)) 0)
  else Option.none

/-- Python `int(s)`: optional surrounding whitespace, optional sign, a
nonempty digit string. -/
def parsePyInt (l : List Char) : Option Int :=
  match stripChars (·.isWhitespace) l with
  | '-' :: ds => (digitsToNat ds).map (fun n => -(n : Int))
  | '+' :: ds => (digitsToNat ds).map (fun n => (n : Int))
  | ds => (digitsToNat ds).map (fun n => (n : Int))

/-- Embedding of `decode_version` (util.py): strip dots from both ends,
split on `.`, convert each piece with `int`; `none` models the
`ValueError`. -/
def decode_version (s : String) : Option (List Int) :=
  (splitOnChar '.' (stripChars (· == '.') s.toList)).mapM parsePyInt

/-- Embedding of `encode_version` (util.py). -/
def encode_version (v : List Int) : String :=
  String.intercalate "." (v.map toString)

/-- `MARSHAL_VERSION` of marshal.py. -/
def MARSHAL_VERSION : List Int := [0, 1]

/-- `MARSHAL_VERSION_STR` of marshal.py. -/
def MARSHAL_VERSION_STR : String := encode_version MARSHAL_VERSION

/-- Python's `type(obj)` display for the JSON values a decoded body can
be. -/
def jTypeName : JValue → String
  | .null => "<class \x27NoneType\x27>"
  | .int _ => "<class \x27int\x27>"
  | .float _ => "<class \x27float\x27>"
  | .str _ => "<class \x27str\x27>"
  | .arr _ => "<class \x27list\x27>"
  | .obj _ => "<class \x27dict\x27>"

/-- Embedding of `unmarshal` (marshal.py): reject non-mappings, read and
parse the `v` and `data` keys (failures collapse to the version-info
error), require the version to equal `MARSHAL_VERSION` exactly, then
delegate to `unmarshal_obj`. -/
def unmarshal (obj : JValue) (nf : Option (String → String → PyValue)) :
    Except String PyValue :=
  match obj with
  | .obj fields =>
    match jlookup fields "v" with
    | Option.none => .error "Could not decode protocol version info."
    | Option.some (.str s) =>
      match decode_version s with
      | Option.none => .error "Could not decode protocol version info."
      | Option.some version =>
        match jlookup fields "data" with
        | Option.none => .error "Could not decode protocol version info."
        | Option.some d =>
          if version = MARSHAL_VERSION then unmarshal_obj d nf
          else .error ("Unsupported protocol version \x27" ++ s ++ "\x27.")
    | Option.some _ => .error "AttributeError: \x27v\x27 is not a string"
  | _ => .error ("Expected a dict, got \x27" ++ jTypeName obj ++ "\x27 instead.")

/-! ## Server endpoint resolution (`server.py`) -/

/-- Model of a Python object on the server side: its named attributes and,
when `inspect.signature` succeeds on it, its signature object. -/
inductive PyObj where
  | mk (attrs : List (String × PyObj)) (sig : Option PyObj)

/-- Attribute list of an object. -/
def PyObj.attrs : PyObj → List (String × PyObj)
  | .mk a _ => a

/-- Signature of an object (`none` models `inspect.signature` raising
`TypeError`). -/
def PyObj.sig : PyObj → Option PyObj
  | .mk _ s => s

/-- Assoc-list lookup for attributes. -/
def lookupAttr : List (String × PyObj) → String → Option PyObj
  | [], _ => Option.none
  | (k, v) :: rest, n => if k = n then Option.some v else lookupAttr rest n

/-- Python `getattr(o, name)` (`none` models `AttributeError`). -/
def getattr (o : PyObj) (n : String) : Option PyObj := lookupAttr o.attrs n

/-- The status/message pair carried by an `RPCError`. -/
structure RPCErr where
  status : Nat
  msg : String
deriving DecidableEq

/-- Embedding of `not_found_error` (server.py). -/
def not_found_error (endpoint : String) : RPCErr :=
  ⟨404, "Endpoint \x27" ++ endpoint ++ "\x27 not found."⟩

/-- Embedding of the resolution loop of `RPCHandler.get_endpoint`:
`consumed` is `components[:i]` of the enumerated list.  When the segment is
`__sig__` the current object is first replaced by its signature (not-found
when it has none); the loop then unconditionally takes `getattr` of the
current object at the segment name. -/
def resolveLoop (obj : PyObj) (consumed : List String) : List String → Except RPCErr PyObj
  | [] => .ok obj
  | c :: rest =>
    if c = "__sig__" then
      match obj.sig with
      | Option.none => .error (not_found_error (String.intercalate "/" (consumed ++ [c])))
      | Option.some s =>
        match getattr s c with
        | Option.some o2 => resolveLoop o2 (consumed ++ [c]) rest
        | Option.none => .error (not_found_error (String.intercalate "/" (consumed ++ [c])))
    else
      match getattr obj c with
      | Option.some o2 => resolveLoop o2 (consumed ++ [c]) rest
      | Option.none => .error (not_found_error (String.intercalate "/" (consumed ++ [c])))

/-- The reference registry `RPCServer.refs`: ids mapped to weak references;
`some none` models an entry whose target has been collected. -/
def lookupRef : List (String × Option PyObj) → String → Option (Option PyObj)
  | [], _ => Option.none
  | (k, v) :: rest, n => if k = n then Option.some v else lookupRef rest n

/-- `endpoint.strip(\x27/\x27).split(\x27/\x27)`, with `[\x27\x27]` collapsed to `[]` as in
`get_endpoint`. -/
def pathComponents (path : String) : List String :=
  let comps := (splitOnChar '/' (stripChars (· == '/') path.toList)).map String.mk
  if comps = [""] then [] else comps

/-- Embedding of `RPCHandler.get_endpoint` (server.py): resolve a path
against the root object, or against the reference registry when the first
segment is `id`; note that in the registry case the enumeration restarts
over `components[2:]`. -/
def get_endpoint (root : PyObj) (refs : List (String × Option PyObj)) (path : String) :
    Except RPCErr PyObj :=
  match pathComponents path with
  | "id" :: rest =>
    match rest with
    | [] => .error (not_found_error "/id")
    | idStr :: rest2 =>
      match lookupRef refs (String.mk (idStr.toList.map Char.toLower)) with
      | Option.none => .error (not_found_error ("/id/" ++ idStr))
      | Option.some Option.none => .error (not_found_error ("/id/" ++ idStr))
      | Option.some (Option.some o) => resolveLoop o [] rest2
  | comps => resolveLoop root [] comps

/-- Python `d.get(key, default)` on a decoded body. -/
def plookup : List (String × PyValue) → String → Option PyValue
  | [], _ => Option.none
  | (k, v) :: rest, n => if k = n then Option.some v else plookup rest n

/-- Embedding of the body dispatch of `RPCHandler.post` (server.py): the
positional-argument and keyword-argument values extracted from the decoded
body. -/
def postCallArgs (body : PyValue) : PyValue × PyValue :=
  match body with
  | .dict kvs =>
    (match plookup kvs "args" with
     | Option.some v => v
     | Option.none => .list [],
     match plookup kvs "kwargs" with
     | Option.some v => v
     | Option.none => .dict [])
  | .list xs => (.list xs, .dict [])
  | v => (.list [v], .dict [])

/-- The media type of a Content-Type header value:
`content_type.split(\x27;\x27)[0].strip()`. -/
def mediaTypeOf (s : String) : String :=
  String.mk (stripChars (·.isWhitespace) ((splitOnChar ';' s.toList).headD []))

/-- Embedding of the Content-Type check of `RPCHandler.post` (server.py):
a missing header defaults to `application/json`; the media type (before any
`;` parameters, whitespace stripped) must be an accepted JSON type. -/
def checkContentType (header : Option String) : Except RPCErr Unit :=
  let ct0 := match header with
    | Option.some s => s
    | Option.none => "application/json"
  let ct := mediaTypeOf ct0
  if ct = "application/json" ∨ ct = "application/x-json" then .ok ()
  else .error ⟨415, "Expected application/json"⟩

/-! ## The marshalling round trip -/

/-- Induction over `PyValue` with membership hypotheses for the nested
lists. -/
theorem pyInduction (motive : PyValue → Prop)
    (hnone : motive .none) (hint : ∀ n, motive (.int n)) (hfloat : ∀ f, motive (.float f))
    (hcomplex : ∀ re im, motive (.complex re im)) (hstr : ∀ s, motive (.str s))
    (hbytes : ∀ bs, motive (.bytes bs))
    (hlist : ∀ xs, (∀ x ∈ xs, motive x) → motive (.list xs))
    (htuple : ∀ xs, (∀ x ∈ xs, motive x) → motive (.tuple xs))
    (hset : ∀ xs, (∀ x ∈ xs, motive x) → motive (.set xs))
    (hdict : ∀ kvs, (∀ kv ∈ kvs, motive kv.2) → motive (.dict kvs))
    (hnd : ∀ a, motive (.ndarray a)) (hobj : ∀ c, motive (.obj c)) :
    ∀ v, motive v
  | .none => hnone
  | .int n => hint n
  | .float f => hfloat f
  | .complex re im => hcomplex re im
  | .str s => hstr s
  | .bytes bs => hbytes bs
  | .list xs => hlist xs (fun x hx =>
      pyInduction motive hnone hint hfloat hcomplex hstr hbytes hlist htuple hset hdict hnd hobj x)
  | .tuple xs => htuple xs (fun x hx =>
      pyInduction motive hnone hint hfloat hcomplex hstr hbytes hlist htuple hset hdict hnd hobj x)
  | .set xs => hset xs (fun x hx =>
      pyInduction motive hnone hint hfloat hcomplex hstr hbytes hlist htuple hset hdict hnd hobj x)
  | .dict kvs => hdict kvs (fun kv hkv =>
      pyInduction motive hnone hint hfloat hcomplex hstr hbytes hlist htuple hset hdict hnd hobj kv.2)
  | .ndarray a => hnd a
  | .obj c => hobj c
termination_by v => sizeOf v
decreasing_by
  all_goals simp_wf
  · have := List.sizeOf_lt_of_mem hx
    omega
  · have := List.sizeOf_lt_of_mem hx
    omega
  · have := List.sizeOf_lt_of_mem hx
    omega
  · have h1 := List.sizeOf_lt_of_mem hkv
    obtain ⟨a, b⟩ := kv
    simp at h1 ⊢
    omega

/-- The round-trip property of one value: marshalling (with no reference
callback) succeeds and unmarshalling gives the value back. -/
def RT (v : PyValue) : Prop :=
  supported v = true →
    ∃ j, marshal_obj v Option.none = .ok j ∧ unmarshal_obj j Option.none = .ok v

theorem rtList : ∀ (xs : List PyValue), (∀ x ∈ xs, RT x) → supportedList xs = true →
    ∃ js, marshalList xs Option.none = .ok js ∧ unmarshalList js Option.none = .ok xs := by
  intro xs
  induction xs with
  | nil =>
    intro _ _
    exact ⟨[], by simp [marshalList], by simp [unmarshalList]⟩
  | cons x rest ihr =>
    intro ih h
    simp only [supportedList, Bool.and_eq_true] at h
    obtain ⟨j, hm, hu⟩ := ih x (by simp) h.1
    obtain ⟨js, hms, hus⟩ := ihr (fun y hy => ih y (by simp [hy])) h.2
    exact ⟨j :: js, by simp [marshalList, hm, hms], by simp [unmarshalList, hu, hus]⟩

theorem rtKVs : ∀ (kvs : List (String × PyValue)), (∀ kv ∈ kvs, RT kv.2) →
    supportedKVs kvs = true →
    ∃ js, marshalKVs kvs Option.none = .ok js ∧ unmarshalKVs js Option.none = .ok kvs := by
  intro kvs
  induction kvs with
  | nil =>
    intro _ _
    exact ⟨[], by simp [marshalKVs], by simp [unmarshalKVs]⟩
  | cons kv rest ihr =>
    intro ih h
    obtain ⟨k, x⟩ := kv
    simp only [supportedKVs, Bool.and_eq_true] at h
    obtain ⟨j, hm, hu⟩ := ih (k, x) (by simp) h.1
    obtain ⟨js, hms, hus⟩ := ihr (fun y hy => ih y (by simp [hy])) h.2
    exact ⟨(k, j) :: js, by simp [marshalKVs, hm, hms], by simp [unmarshalKVs, hu, hus]⟩

theorem rtAll : ∀ v : PyValue, RT v := by
  intro v
  induction v using pyInduction with
  | hnone =>
    intro _
    exact ⟨.null, by simp [marshal_obj], by simp [unmarshal_obj]⟩
  | hint n =>
    intro _
    exact ⟨.int n, by simp [marshal_obj], by simp [unmarshal_obj]⟩
  | hfloat f =>
    intro _
    exact ⟨.float f, by simp [marshal_obj], by simp [unmarshal_obj]⟩
  | hcomplex re im =>
    intro _
    refine ⟨wrapped "complex" (.arr [.float re, .float im]) [], by simp [marshal_obj], ?_⟩
    simp [unmarshal_obj, wrapped, jlookup]
  | hstr s =>
    intro _
    exact ⟨.str s, by simp [marshal_obj], by simp [unmarshal_obj]⟩
  | hbytes bs =>
    intro h
    have hlt : ∀ b ∈ bs, b < 256 := by
      simp only [supported, List.all_eq_true, decide_eq_true_eq] at h
      exact h
    refine ⟨wrapped "bytes" (.str (String.mk (b64encode bs))) [], by simp [marshal_obj], ?_⟩
    have htl : (String.mk (b64encode bs)).toList = b64encode bs := rfl
    simp [unmarshal_obj, wrapped, jlookup, htl, b64decode_b64encode bs hlt]
  | hlist xs ih =>
    intro h
    have h1 : supportedList xs = true := by simpa [supported] using h
    obtain ⟨js, hm, hu⟩ := rtList xs ih h1
    exact ⟨.arr js, by simp [marshal_obj, hm], by simp [unmarshal_obj, hu]⟩
  | htuple xs ih =>
    intro h
    have h1 : supportedList xs = true := by simpa [supported] using h
    obtain ⟨js, hm, hu⟩ := rtList xs ih h1
    refine ⟨wrapped "tuple" (.arr js) [], by simp [marshal_obj, hm], ?_⟩
    simp [unmarshal_obj, wrapped, jlookup, hu]
  | hset xs ih =>
    intro h
    have h1 : supportedList xs = true := by simpa [supported] using h
    obtain ⟨js, hm, hu⟩ := rtList xs ih h1
    refine ⟨wrapped "set" (.arr js) [], by simp [marshal_obj, hm], ?_⟩
    simp [unmarshal_obj, wrapped, jlookup, hu]
  | hdict kvs ih =>
    intro h
    have h1 : supportedKVs kvs = true := by simpa [supported] using h
    obtain ⟨js, hm, hu⟩ := rtKVs kvs ih h1
    refine ⟨wrapped "dict" (.obj js) [], by simp [marshal_obj, hm], ?_⟩
    simp [unmarshal_obj, wrapped, jlookup, hu]
  | hnd a =>
    intro _
    refine ⟨marshal_ndarray a, by simp [marshal_obj], ?_⟩
    have htl : (String.mk (b64encode (write_array a))).toList = b64encode (write_array a) := rfl
    simp [unmarshal_obj, marshal_ndarray, wrapped, jlookup, htl,
      b64decode_b64encode (write_array a) (write_array_lt a), read_array_write_array a]
  | hobj c =>
    intro h
    simp [supported] at h

/-! ## Demonstration objects for the endpoint-resolution claims -/

/-- A signature object (as returned by `inspect.signature`); it has no
`__sig__` attribute, like the real `inspect.Signature`. -/
def sigObj : PyObj := .mk [] Option.none

/-- A callable object whose signature is `sigObj`. -/
def funObj : PyObj := .mk [] (Option.some sigObj)

/-- A root object with a single attribute `fun` bound to `funObj`. -/
def demoRoot : PyObj := .mk [("fun", funObj)] Option.none

/-! ## Claims -/

/-- C1: for every supported value shape (integers, floats, complex numbers,
text with embedded nulls, byte strings, nested mappings, tuples, sets,
multi-dimensional numeric arrays, and nested lists thereof), unmarshalling
the marshalled form gives back an equal value:
`unmarshal_obj (marshal_obj V) = V`. -/
theorem C1_roundtrip (v : PyValue) (h : supported v = true) :
    ∃ j, marshal_obj v Option.none = .ok j ∧ unmarshal_obj j Option.none = .ok v :=
  rtAll v h

theorem C1_roundtrip_witness :
    supported (.dict [("a", .int 5),
      ("b", .list [.int (-1), .float ⟨100⟩, .tuple [.int 2], .set [.int 3],
        .bytes [0, 255, 7], .str "x\u0000y", .complex ⟨1⟩ ⟨2⟩,
        .ndarray ⟨[2, 1], .ints [4, -5]⟩, PyValue.none])]) = true
    ∧ ∃ j, marshal_obj (.dict [("a", .int 5),
        ("b", .list [.int (-1), .float ⟨100⟩, .tuple [.int 2], .set [.int 3],
          .bytes [0, 255, 7], .str "x\u0000y", .complex ⟨1⟩ ⟨2⟩,
          .ndarray ⟨[2, 1], .ints [4, -5]⟩, PyValue.none])]) Option.none = .ok j
      ∧ unmarshal_obj j Option.none = .ok (.dict [("a", .int 5),
        ("b", .list [.int (-1), .float ⟨100⟩, .tuple [.int 2], .set [.int 3],
          .bytes [0, 255, 7], .str "x\u0000y", .complex ⟨1⟩ ⟨2⟩,
          .ndarray ⟨[2, 1], .ints [4, -5]⟩, PyValue.none])]) :=
  ⟨rfl, C1_roundtrip _ rfl⟩

/-- C2: the claim says a trailing `__sig__` segment resolves to the call
signature of the object named by the preceding segments, failing not-found
only when that object has no signature.  The code disagrees: the loop in
`get_endpoint` replaces the object by its signature but then still executes
`getattr(obj, \x27__sig__\x27)` on the signature object (there is no
`continue`), which always raises `AttributeError`, so the request 404s even
though `funObj` does have a signature. -/
theorem C2_sig_always_not_found :
    funObj.sig = Option.some sigObj
    ∧ get_endpoint demoRoot [] "/fun/__sig__" = .error (not_found_error "fun/__sig__") :=
  ⟨rfl, rfl⟩

/-- C3: an unrecognized `type` tag does fail with a decode error, but the
message is the literal text `Unknown type annotation \x7bty\x7d` — the
source line misses the `f` string prefix — so it does not name the tag
(`bogus` is not a substring of the message). -/
theorem C3_unknown_tag_message :
    unmarshal_obj (.obj [("type", .str "bogus"), ("data", .int 1)]) Option.none
      = .error "Unknown type annotation \x7bty\x7d"
    ∧ ¬ ("bogus".toList <:+: "Unknown type annotation \x7bty\x7d".toList) := by
  constructor
  · simp [unmarshal_obj, jlookup]
  · decide

/-- C4: envelope decoding fails on every non-mapping, on every mapping
missing `v` or `data`, on every `v` that does not parse as a dot-separated
integer sequence, and on every parsed version other than the compiled-in
`(0, 1)`; with `v` equal to the compiled-in version string and `data`
present it returns `unmarshal_obj` of the `data` field. -/
theorem C4_envelope_decoding :
    (∀ (j : JValue) (nf : Option (String → String → PyValue)),
      (∀ fields, j ≠ .obj fields) →
      unmarshal j nf = .error ("Expected a dict, got \x27" ++ jTypeName j ++ "\x27 instead."))
    ∧ (∀ (fields : List (String × JValue)) (nf : Option (String → String → PyValue)),
      jlookup fields "v" = Option.none →
      unmarshal (.obj fields) nf = .error "Could not decode protocol version info.")
    ∧ (∀ (fields : List (String × JValue)) (nf : Option (String → String → PyValue)),
      jlookup fields "data" = Option.none →
      ∃ e, unmarshal (.obj fields) nf = .error e)
    ∧ (∀ (fields : List (String × JValue)) (s : String)
        (nf : Option (String → String → PyValue)),
      jlookup fields "v" = Option.some (.str s) → decode_version s = Option.none →
      unmarshal (.obj fields) nf = .error "Could not decode protocol version info.")
    ∧ (∀ (fields : List (String × JValue)) (s : String) (ver : List Int)
        (nf : Option (String → String → PyValue)),
      jlookup fields "v" = Option.some (.str s) → decode_version s = Option.some ver →
      ver ≠ MARSHAL_VERSION →
      ∃ e, unmarshal (.obj fields) nf = .error e)
    ∧ (∀ (fields : List (String × JValue)) (d : JValue)
        (nf : Option (String → String → PyValue)),
      jlookup fields "v" = Option.some (.str MARSHAL_VERSION_STR) →
      jlookup fields "data" = Option.some d →
      unmarshal (.obj fields) nf = unmarshal_obj d nf) := by
  refine ⟨?_, ?_, ?_, ?_, ?_, ?_⟩
  · intro j nf h
    cases j <;> first | rfl | exact absurd rfl (h _)
  · intro fields nf hv
    simp [unmarshal, hv]
  · intro fields nf hd
    cases hv : jlookup fields "v" with
    | none =>
      exact ⟨"Could not decode protocol version info.", by simp [unmarshal, hv]⟩
    | some v =>
      cases v with
      | str s =>
        cases hdv : decode_version s with
        | none =>
          exact ⟨"Could not decode protocol version info.", by simp [unmarshal, hv, hdv]⟩
        | some ver =>
          exact ⟨"Could not decode protocol version info.",
            by simp [unmarshal, hv, hdv, hd]⟩
      | null => exact ⟨"AttributeError: \x27v\x27 is not a string", by simp [unmarshal, hv]⟩
      | int n => exact ⟨"AttributeError: \x27v\x27 is not a string", by simp [unmarshal, hv]⟩
      | float f => exact ⟨"AttributeError: \x27v\x27 is not a string", by simp [unmarshal, hv]⟩
      | arr xs => exact ⟨"AttributeError: \x27v\x27 is not a string", by simp [unmarshal, hv]⟩
      | obj o => exact ⟨"AttributeError: \x27v\x27 is not a string", by simp [unmarshal, hv]⟩
  · intro fields s nf hv hdv
    simp [unmarshal, hv, hdv]
  · intro fields s ver nf hv hdv hne
    cases hd : jlookup fields "data" with
    | none =>
      exact ⟨"Could not decode protocol version info.", by simp [unmarshal, hv, hdv, hd]⟩
    | some d =>
      exact ⟨"Unsupported protocol version \x27" ++ s ++ "\x27.",
        by simp [unmarshal, hv, hdv, hd, hne]⟩
  · intro fields d nf hv hd
    simp [unmarshal, hv, hd,
      show decode_version MARSHAL_VERSION_STR = Option.some MARSHAL_VERSION from rfl]

theorem C4_envelope_decoding_witness :
    unmarshal (.int 5) Option.none
      = .error "Expected a dict, got \x27<class \x27int\x27>\x27 instead."
    ∧ unmarshal (.obj [("data", .int 5)]) Option.none
      = .error "Could not decode protocol version info."
    ∧ (∃ e, unmarshal (.obj [("v", .str "0.1")]) Option.none = .error e)
    ∧ unmarshal (.obj [("v", .str "x"), ("data", .int 5)]) Option.none
      = .error "Could not decode protocol version info."
    ∧ (∃ e, unmarshal (.obj [("v", .str "0.0"), ("data", .int 5)]) Option.none = .error e)
    ∧ unmarshal (.obj [("v", .str "0.1"), ("data", .int 5)]) Option.none
      = unmarshal_obj (.int 5) Option.none :=
  ⟨C4_envelope_decoding.1 (.int 5) Option.none (fun _ h => JValue.noConfusion h),
   C4_envelope_decoding.2.1 [("data", .int 5)] Option.none rfl,
   C4_envelope_decoding.2.2.1 [("v", .str "0.1")] Option.none rfl,
   C4_envelope_decoding.2.2.2.1 [("v", .str "x"), ("data", .int 5)] "x" Option.none rfl rfl,
   C4_envelope_decoding.2.2.2.2.1 [("v", .str "0.0"), ("data", .int 5)] "0.0" [0, 0]
     Option.none rfl rfl (by decide),
   C4_envelope_decoding.2.2.2.2.2 [("v", .str "0.1"), ("data", .int 5)] (.int 5)
     Option.none rfl rfl⟩

/-- C5: a value with no native encoding marshals, given a reference
callback returning url `U`, to exactly the three-field object
`\x7b"type": "ref", "url": U, "class": <runtime type name>\x7d`; without a
callback it fails with an unsupported-type error naming the concrete
type. -/
theorem C5_reference_fallback (cls : String) (f : PyValue → String) :
    marshal_obj (.obj cls) (Option.some f)
      = .ok (.obj [("type", .str "ref"), ("url", .str (f (.obj cls))), ("class", .str cls)])
    ∧ marshal_obj (.obj cls) Option.none
      = .error ("Unsupported type <class \x27" ++ cls ++ "\x27>") := by
  constructor <;> simp [marshal_obj]

/-- C6: a decoded POST body that is a mapping supplies `args` (default
empty list) and `kwargs` (default empty mapping); a bare list supplies
itself as the positional arguments; any other shape becomes the single
positional argument. -/
theorem C6_post_body_dispatch :
    (∀ kvs, postCallArgs (.dict kvs)
      = ((plookup kvs "args").getD (.list []), (plookup kvs "kwargs").getD (.dict [])))
    ∧ (∀ xs, postCallArgs (.list xs) = (.list xs, .dict []))
    ∧ (∀ v : PyValue, (∀ kvs, v ≠ .dict kvs) → (∀ xs, v ≠ .list xs) →
      postCallArgs v = (.list [v], .dict [])) := by
  refine ⟨?_, ?_, ?_⟩
  · intro kvs
    cases hargs : plookup kvs "args" <;> cases hkw : plookup kvs "kwargs" <;>
      simp [postCallArgs, hargs, hkw]
  · intro xs
    rfl
  · intro v hd hl
    cases v <;> first | rfl | exact absurd rfl (hd _) | exact absurd rfl (hl _)

theorem C6_post_body_dispatch_witness :
    postCallArgs (.dict [("args", .list [.int 1, .int 2])])
      = (.list [.int 1, .int 2], .dict [])
    ∧ postCallArgs (.list [.int 7]) = (.list [.int 7], .dict [])
    ∧ postCallArgs (.int 3) = (.list [.int 3], .dict []) := by
  refine ⟨?_, C6_post_body_dispatch.2.1 [.int 7],
    C6_post_body_dispatch.2.2 (.int 3) (fun _ h => PyValue.noConfusion h)
      (fun _ h => PyValue.noConfusion h)⟩
  rw [C6_post_body_dispatch.1 [("args", .list [.int 1, .int 2])]]
  rfl

/-- C7: a path whose components are `id`, a segment `R`, and a remainder
resolves `R` against the reference registry after lower-casing, fails
not-found when the id is absent or its weak reference has expired, and
otherwise continues normal segment-by-segment resolution from the registry
object over the remaining components. -/
theorem C7_id_path_resolution (path R : String) (rest2 : List String)
    (root : PyObj) (refs : List (String × Option PyObj))
    (hpath : pathComponents path = "id" :: R :: rest2) :
    (lookupRef refs (String.mk (R.toList.map Char.toLower)) = Option.none →
      get_endpoint root refs path = .error (not_found_error ("/id/" ++ R)))
    ∧ (lookupRef refs (String.mk (R.toList.map Char.toLower)) = Option.some Option.none →
      get_endpoint root refs path = .error (not_found_error ("/id/" ++ R)))
    ∧ (∀ o, lookupRef refs (String.mk (R.toList.map Char.toLower)) = Option.some (Option.some o) →
      get_endpoint root refs path = resolveLoop o [] rest2) := by
  refine ⟨?_, ?_, ?_⟩
  · intro h
    simp only [String.toList] at h
    simp [get_endpoint, hpath, h]
  · intro h
    simp only [String.toList] at h
    simp [get_endpoint, hpath, h]
  · intro o h
    simp only [String.toList] at h
    simp [get_endpoint, hpath, h]

theorem C7_id_path_resolution_witness :
    get_endpoint (.mk [] Option.none) [] "/id/AB/x"
      = .error (not_found_error "/id/AB")
    ∧ get_endpoint (.mk [] Option.none) [("ab", Option.none)] "/id/AB/x"
      = .error (not_found_error "/id/AB")
    ∧ get_endpoint (.mk [] Option.none) [("ab", Option.some demoRoot)] "/id/AB/x"
      = resolveLoop demoRoot [] ["x"] :=
  ⟨(C7_id_path_resolution "/id/AB/x" "AB" ["x"] (.mk [] Option.none) [] rfl).1 rfl,
   (C7_id_path_resolution "/id/AB/x" "AB" ["x"] (.mk [] Option.none)
     [("ab", Option.none)] rfl).2.1 rfl,
   (C7_id_path_resolution "/id/AB/x" "AB" ["x"] (.mk [] Option.none)
     [("ab", Option.some demoRoot)] rfl).2.2 demoRoot rfl⟩

/-- C8: the claim says a failed attribute lookup names all segments of the
original path up to the failing one, including a leading `id/<ref-id>`
prefix.  The code disagrees for registry paths: `get_endpoint` reassigns
`components = components[2:]` before the loop (the source even carries a
`todo this breaks error messages` comment), so for `/id/ab/missing` on a
live reference the 404 message cites only `missing`, not
`id/ab/missing`. -/
theorem C8_id_prefix_error_message :
    get_endpoint (.mk [] Option.none) [("ab", Option.some (.mk [] Option.none))] "/id/ab/missing"
      = .error (not_found_error "missing")
    ∧ not_found_error "missing" ≠ not_found_error "id/ab/missing" := by
  exact ⟨rfl, by decide⟩

/-- C9: `decode_version` strips dots from both ends of the version string
before splitting, so an envelope whose `v` is the compiled-in version
string surrounded by extra dots (e.g. `.0.1.`) is accepted and decoding
returns the payload. -/
theorem C9_version_extra_dots (a b : Nat) (s : String)
    (fields : List (String × JValue)) (d : JValue)
    (nf : Option (String → String → PyValue))
    (hs : s.toList = List.replicate a '.' ++ MARSHAL_VERSION_STR.toList ++ List.replicate b '.')
    (hv : jlookup fields "v" = Option.some (.str s))
    (hd : jlookup fields "data" = Option.some d) :
    unmarshal (.obj fields) nf = unmarshal_obj d nf := by
  have hdots : decode_version s = Option.some MARSHAL_VERSION := by
    unfold decode_version
    rw [hs]
    have hrep : ∀ (k : Nat) (l : List Char),
        List.dropWhile (fun c => c == '.') (List.replicate k '.' ++ l)
          = List.dropWhile (fun c => c == '.') l := by
      intro k
      induction k with
      | zero => intro l; simp
      | succ m ih => intro l; simp [List.replicate_succ, List.dropWhile_cons, ih]
    have hstrip : stripChars (fun c => c == '.')
        (List.replicate a '.' ++ MARSHAL_VERSION_STR.toList ++ List.replicate b '.')
          = ['0', '.', '1'] := by
      unfold stripChars
      rw [show MARSHAL_VERSION_STR.toList = ['0', '.', '1'] from rfl]
      rw [List.append_assoc, hrep a]
      rw [show ('0' :: '.' :: '1' :: [] : List Char) ++ List.replicate b '.'
            = '0' :: '.' :: '1' :: List.replicate b '.' from rfl]
      rw [List.dropWhile_cons]
      simp only [show (('0' : Char) == '.') = false from rfl, Bool.false_eq_true,
        if_false, List.reverse_cons]
      simp only [List.reverse_replicate, List.append_assoc]
      rw [hrep b]
      rfl
    rw [hstrip]
    rfl
  simp [unmarshal, hv, hd, hdots]

theorem C9_version_extra_dots_witness :
    unmarshal (.obj [("v", .str ".0.1."), ("data", .int 5)]) Option.none
      = unmarshal_obj (.int 5) Option.none :=
  C9_version_extra_dots 1 1 ".0.1." [("v", .str ".0.1."), ("data", .int 5)] (.int 5)
    Option.none rfl rfl rfl

/-- C10: a POST with no Content-Type header is treated as the accepted
media type `application/json` and does not raise the 415 condition; the 415
condition is raised exactly when a header is present whose media type
(before `;` parameters) is neither `application/json` nor
`application/x-json`. -/
theorem C10_content_type_default (s : String) :
    checkContentType Option.none = .ok ()
    ∧ (mediaTypeOf s = "application/json" ∨ mediaTypeOf s = "application/x-json" →
      checkContentType (Option.some s) = .ok ())
    ∧ (mediaTypeOf s ≠ "application/json" → mediaTypeOf s ≠ "application/x-json" →
      checkContentType (Option.some s) = .error ⟨415, "Expected application/json"⟩) := by
  refine ⟨rfl, ?_, ?_⟩
  · intro h
    simp [checkContentType, h]
  · intro h1 h2
    simp [checkContentType, h1, h2]

theorem C10_content_type_default_witness :
    checkContentType Option.none = .ok ()
    ∧ checkContentType (Option.some "application/json; charset=UTF-8") = .ok ()
    ∧ checkContentType (Option.some "text/plain")
      = .error ⟨415, "Expected application/json"⟩ :=
  ⟨(C10_content_type_default "x").1,
   (C10_content_type_default "application/json; charset=UTF-8").2.1 (Or.inl rfl),
   (C10_content_type_default "text/plain").2.2 (by decide) (by decide)⟩

end PyRPC
